import Mathlib

/-!
Verification of the egui-chinese-font crate (src/lib.rs) against its
natural-language specification.

The crate has two responsibilities:
* a Font Resolver (`load_chinese_font` dispatching to
  `load_windows_chinese_font` / `load_macos_chinese_font` /
  `load_linux_chinese_font`) that scans a fixed per-platform list of
  candidate font paths and returns the bytes of the first readable file;
* a Font Registrar (`setup_chinese_fonts` / `setup_custom_chinese_font`)
  that builds a fresh `FontDefinitions` starting from the toolkit default,
  inserts the font under a name, puts that name at index 0 of the
  proportional and monospace family lists, and replaces the context's font
  configuration wholesale via `set_fonts`;
plus a diagnostic accessor `get_chinese_font_paths`.

The embedding below follows the Rust source line by line.  Platform
selection, done with `#[cfg(target_os = ...)]` in the source, is modelled
as an explicit `Platform` argument; the filesystem, accessed with
`std::fs::read` in the source, is modelled as a function from path strings
to `Option Bytes` (`none` covering every read failure: not found,
permission denied, I/O error — the source's `if let Ok(..)` collapses them
identically).  `FontData::from_owned` is an ownership wrapper in the
source and is the identity on bytes here.
-/

namespace EguiChineseFont

/-- Raw font-file contents: an owned byte buffer (`Vec<u8>` in the source). -/
abbrev Bytes := List Nat

/-- The host filesystem as seen through `std::fs::read`: a path either
yields the full file contents or fails (`none` covers not-found,
permission-denied and I/O errors alike, exactly as the source's
`if let Ok(font_data) = std::fs::read(font_path)` does). -/
abbrev FileSystem := String → Option Bytes

/-- The platform identity that the source selects with
`#[cfg(target_os = "windows" | "macos" | "linux")]`; `other` is every
platform outside the three recognized targets. -/
inductive Platform where
  | windows
  | macos
  | linux
  | other
deriving DecidableEq, Repr

/-- Error type for font loading operations (src/lib.rs lines 22-30).
`ReadError` carries `std::io::Error` in the source, modelled as a string. -/
inductive FontError where
  | NotFound : String → FontError
  | ReadError : String → FontError
  | UnsupportedPlatform : FontError
deriving DecidableEq, Repr

/-- The `font_paths` array of `load_windows_chinese_font`
(src/lib.rs lines 105-116), in source order. -/
def windows_font_paths : List String :=
  [ "C:\\Windows\\Fonts\\msyh.ttc"
  , "C:\\Windows\\Fonts\\msyhbd.ttc"
  , "C:\\Windows\\Fonts\\simsun.ttc"
  , "C:\\Windows\\Fonts\\simhei.ttf"
  , "C:\\Windows\\Fonts\\simkai.ttf"
  , "C:\\Windows\\Fonts\\simfang.ttf"
  , "C:\\Windows\\Fonts\\msjh.ttc"
  , "C:\\Windows\\Fonts\\msjhbd.ttc"
  , "C:\\Windows\\Fonts\\kaiu.ttf"
  , "C:\\Windows\\Fonts\\mingliu.ttc"
  ]

/-- The `font_paths` array of `load_macos_chinese_font`
(src/lib.rs lines 129-136), in source order. -/
def macos_font_paths : List String :=
  [ "/System/Library/Fonts/PingFang.ttc"
  , "/System/Library/Fonts/STHeiti Light.ttc"
  , "/System/Library/Fonts/STHeiti Medium.ttc"
  , "/System/Library/Fonts/Hiragino Sans GB.ttc"
  , "/Library/Fonts/Arial Unicode.ttf"
  , "/System/Library/Fonts/Apple LiGothic Medium.ttf"
  ]

/-- The `font_paths` array of `load_linux_chinese_font`
(src/lib.rs lines 150-164), in source order. -/
def linux_font_paths : List String :=
  [ "/usr/share/fonts/truetype/droid/DroidSansFallbackFull.ttf"
  , "/usr/share/fonts/truetype/arphic/uming.ttc"
  , "/usr/share/fonts/truetype/arphic/ukai.ttc"
  , "/usr/share/fonts/truetype/wqy/wqy-microhei.ttc"
  , "/usr/share/fonts/truetype/wqy/wqy-zenhei.ttc"
  , "/usr/share/fonts/opentype/noto/NotoSansCJK-Regular.ttc"
  , "/usr/share/fonts/truetype/liberation/LiberationSans-Regular.ttf"
  , "/usr/share/fonts/truetype/dejavu/DejaVuSans.ttf"
  , "/usr/share/fonts/google-droid/DroidSansFallbackFull.ttf"
  , "/usr/share/fonts/noto-cjk/NotoSansCJK-Regular.ttc"
  ]

/-- The scan loop shared verbatim by the three `load_*_chinese_font`
functions (e.g. src/lib.rs lines 118-122): try each path in order and
return the first successful read, skipping every failure silently. -/
def read_first (fs : FileSystem) : List String → Option Bytes
  | [] => none
  | p :: rest =>
    match fs p with
    | some d => some d
    | none => read_first fs rest

/-- Model of `load_windows_chinese_font` (src/lib.rs lines 103-125): scan the
Windows candidate list, return the first readable file's bytes, or
`NotFound` with the Windows message. -/
def load_windows_chinese_font (fs : FileSystem) : Except FontError Bytes :=
  match read_first fs windows_font_paths with
  | some d => .ok d
  | none => .error (.NotFound "No Chinese font found on Windows")

/-- Model of `load_macos_chinese_font` (src/lib.rs lines 128-145). -/
def load_macos_chinese_font (fs : FileSystem) : Except FontError Bytes :=
  match read_first fs macos_font_paths with
  | some d => .ok d
  | none => .error (.NotFound "No Chinese font found on macOS")

/-- Model of `load_linux_chinese_font` (src/lib.rs lines 148-173). -/
def load_linux_chinese_font (fs : FileSystem) : Except FontError Bytes :=
  match read_first fs linux_font_paths with
  | some d => .ok d
  | none => .error (.NotFound "No Chinese font found on Linux")

/-- Model of `load_chinese_font` (src/lib.rs lines 80-100): dispatch on the
platform identity that the source fixes with `#[cfg(target_os = ...)]`;
unsupported platforms fail immediately with `UnsupportedPlatform`. -/
def load_chinese_font (plat : Platform) (fs : FileSystem) : Except FontError Bytes :=
  match plat with
  | .windows => load_windows_chinese_font fs
  | .macos => load_macos_chinese_font fs
  | .linux => load_linux_chinese_font fs
  | .other => .error .UnsupportedPlatform

/-- Selector for the candidate-path literal embedded in the `load_*`
function that `load_chinese_font` dispatches to on each platform (the
Resolver's internal candidate list); `other` never scans any list. -/
def resolver_candidate_paths : Platform → List String
  | .windows => windows_font_paths
  | .macos => macos_font_paths
  | .linux => linux_font_paths
  | .other => []

/-- Model of `get_chinese_font_paths` (src/lib.rs lines 209-249): the diagnostic
accessor, with its own independently written path literals. -/
def get_chinese_font_paths : Platform → List String
  | .windows =>
    [ "C:\\Windows\\Fonts\\msyh.ttc"
    , "C:\\Windows\\Fonts\\msyhbd.ttc"
    , "C:\\Windows\\Fonts\\simsun.ttc"
    , "C:\\Windows\\Fonts\\simhei.ttf"
    , "C:\\Windows\\Fonts\\simkai.ttf"
    , "C:\\Windows\\Fonts\\simfang.ttf"
    , "C:\\Windows\\Fonts\\msjh.ttc"
    , "C:\\Windows\\Fonts\\msjhbd.ttc"
    ]
  | .macos =>
    [ "/System/Library/Fonts/PingFang.ttc"
    , "/System/Library/Fonts/STHeiti Light.ttc"
    , "/System/Library/Fonts/STHeiti Medium.ttc"
    , "/System/Library/Fonts/Hiragino Sans GB.ttc"
    , "/Library/Fonts/Arial Unicode.ttf"
    ]
  | .linux =>
    [ "/usr/share/fonts/truetype/droid/DroidSansFallbackFull.ttf"
    , "/usr/share/fonts/truetype/arphic/uming.ttc"
    , "/usr/share/fonts/truetype/wqy/wqy-microhei.ttc"
    , "/usr/share/fonts/opentype/noto/NotoSansCJK-Regular.ttc"
    ]
  | .other => []

/-- Insertion into a string-keyed map (`BTreeMap::insert` semantics on
egui's `font_data`): replace the value when the key is present, otherwise
add the binding. -/
def map_insert (k : String) (v : Bytes) : List (String × Bytes) → List (String × Bytes)
  | [] => [(k, v)]
  | (k₂, v₂) :: rest =>
    if k₂ = k then (k, v) :: rest else (k₂, v₂) :: map_insert k v rest

/-- Lookup in a string-keyed map. -/
def map_get (k : String) : List (String × Bytes) → Option Bytes
  | [] => none
  | (k₂, v₂) :: rest => if k₂ = k then some v₂ else map_get k rest

/-- egui's `FontDefinitions`, restricted to the capability surface the
crate touches: the `font_data` name-to-bytes map and the two family
priority lists (`families[Proportional]` and `families[Monospace]`). -/
structure FontDefinitions where
  font_data : List (String × Bytes)
  proportional : List String
  monospace : List String
deriving DecidableEq, Repr

/-- The toolkit's built-in default configuration, produced by
`FontDefinitions::default()` in the external egui library (not part of
this repository).  Both registrar operations start from it.  Its exact
entries belong to the toolkit; what the theorems below use is only that
it is a fixed constant, independent of any context.  The names are
egui's built-in fonts; the byte contents of those embedded fonts never
matter to any property proved here and are left empty. -/
def FontDefinitions.default : FontDefinitions :=
  { font_data :=
      [ ("Hack", []), ("Ubuntu-Light", [])
      , ("NotoEmoji-Regular", []), ("emoji-icon-font", []) ]
  , proportional := ["Ubuntu-Light", "NotoEmoji-Regular", "emoji-icon-font"]
  , monospace := ["Hack", "Ubuntu-Light", "NotoEmoji-Regular", "emoji-icon-font"]
  }

/-- The egui `Context`, restricted to the one piece of state the crate
touches: its current font configuration. -/
abbrev Context := FontDefinitions

/-- egui's `Context::set_fonts`: replace the context's font configuration
wholesale with the given `FontDefinitions`. -/
def set_fonts (_ctx : Context) (fonts : FontDefinitions) : Context := fonts

/-- Model of `setup_custom_chinese_font` (src/lib.rs lines 184-203): start from
`FontDefinitions::default()`, pick the name (defaulting to "chinese"),
insert the bytes under that name, put the name at index 0 of both family
lists, and apply with `set_fonts`.  Total: no I/O, no failure path. -/
def setup_custom_chinese_font (ctx : Context) (font_data : Bytes)
    (font_name : Option String) : Context :=
  let fonts := FontDefinitions.default
  let name := font_name.getD "chinese"
  let fonts :=
    { fonts with font_data := map_insert name font_data fonts.font_data }
  let fonts := { fonts with proportional := name :: fonts.proportional }
  let fonts := { fonts with monospace := name :: fonts.monospace }
  set_fonts ctx fonts

/-- Model of `setup_chinese_fonts` (src/lib.rs lines 55-77): resolve via
`load_chinese_font` (the `?` operator returns the error immediately,
leaving the context untouched); on success insert the bytes under
"chinese", put "chinese" at index 0 of both family lists of a
configuration started from `FontDefinitions::default()`, and apply with
`set_fonts`.  Returns the call's result paired with the context state
after the call. -/
def setup_chinese_fonts (plat : Platform) (fs : FileSystem) (ctx : Context) :
    Except FontError Unit × Context :=
  match load_chinese_font plat fs with
  | .error e => (.error e, ctx)
  | .ok chinese_font_data =>
    let fonts := FontDefinitions.default
    let fonts :=
      { fonts with
          font_data := map_insert "chinese" chinese_font_data fonts.font_data }
    let fonts := { fonts with proportional := "chinese" :: fonts.proportional }
    let fonts := { fonts with monospace := "chinese" :: fonts.monospace }
    (.ok (), set_fonts ctx fonts)

/-- Display name of a supported platform, as it appears inside the
`NotFound` message literal of the corresponding `load_*` function. -/
def platform_display : Platform → String
  | .windows => "Windows"
  | .macos => "macOS"
  | .linux => "Linux"
  | .other => ""

/-! ## Helper lemmas about the scan loop and the map operations -/

/-- A successful read of the head short-circuits the scan. -/
theorem read_first_cons_of_some (fs : FileSystem) (p : String) (l : List String)
    (d : Bytes) (h : fs p = some d) : read_first fs (p :: l) = some d := by
  simp [read_first, h]

/-- Failing candidates at the front of the list are skipped silently. -/
theorem read_first_eq_of_prefix_none (fs : FileSystem) (pre l : List String)
    (h : ∀ q ∈ pre, fs q = none) : read_first fs (pre ++ l) = read_first fs l := by
  induction pre with
  | nil => rfl
  | cons a as ih =>
    have ha : fs a = none := h a (by simp)
    simp only [List.cons_append, read_first, ha]
    exact ih fun q hq => h q (by simp [hq])

/-- When every candidate fails, the scan fails. -/
theorem read_first_eq_none (fs : FileSystem) (l : List String)
    (h : ∀ p ∈ l, fs p = none) : read_first fs l = none := by
  induction l with
  | nil => rfl
  | cons a as ih =>
    simp only [read_first, h a (by simp)]
    exact ih fun p hp => h p (by simp [hp])

/-- A successful scan returns the readable contents of one of the
candidates. -/
theorem read_first_some_mem (fs : FileSystem) (l : List String) (d : Bytes)
    (h : read_first fs l = some d) : ∃ p ∈ l, fs p = some d := by
  induction l with
  | nil => simp [read_first] at h
  | cons a as ih =>
    cases hfa : fs a with
    | some b =>
      simp only [read_first, hfa, Option.some.injEq] at h
      exact ⟨a, by simp, by rw [hfa, h]⟩
    | none =>
      simp only [read_first, hfa] at h
      obtain ⟨p, hp, hfs⟩ := ih h
      exact ⟨p, by simp [hp], hfs⟩

/-- Inserting a binding makes it the one found by lookup. -/
theorem map_get_insert_self (k : String) (v : Bytes) (m : List (String × Bytes)) :
    map_get k (map_insert k v m) = some v := by
  induction m with
  | nil => simp [map_insert, map_get]
  | cons kv rest ih =>
    obtain ⟨k₂, v₂⟩ := kv
    by_cases h : k₂ = k
    · simp [map_insert, map_get, h]
    · simp [map_insert, map_get, h, ih]

/-- Resolution succeeds with `d` exactly when the platform is supported
and the scan over the Resolver's candidate list succeeds with `d`. -/
theorem load_ok_iff (plat : Platform) (fs : FileSystem) (d : Bytes) :
    load_chinese_font plat fs = .ok d ↔
      plat ≠ .other ∧ read_first fs (resolver_candidate_paths plat) = some d := by
  cases plat with
  | other => simp [load_chinese_font]
  | windows =>
    simp only [load_chinese_font, load_windows_chinese_font, resolver_candidate_paths]
    cases hr : read_first fs windows_font_paths <;> simp [hr]
  | macos =>
    simp only [load_chinese_font, load_macos_chinese_font, resolver_candidate_paths]
    cases hr : read_first fs macos_font_paths <;> simp [hr]
  | linux =>
    simp only [load_chinese_font, load_linux_chinese_font, resolver_candidate_paths]
    cases hr : read_first fs linux_font_paths <;> simp [hr]

/-- When the platform is supported and the whole scan fails, resolution
fails with the `NotFound` message naming the platform. -/
theorem load_exhausted (plat : Platform) (fs : FileSystem) (hplat : plat ≠ .other)
    (hnone : read_first fs (resolver_candidate_paths plat) = none) :
    load_chinese_font plat fs =
      .error (.NotFound ("No Chinese font found on " ++ platform_display plat)) := by
  cases plat with
  | other => exact absurd rfl hplat
  | windows =>
    have h : read_first fs windows_font_paths = none := hnone
    simp [load_chinese_font, load_windows_chinese_font, h]
    rfl
  | macos =>
    have h : read_first fs macos_font_paths = none := hnone
    simp [load_chinese_font, load_macos_chinese_font, h]
    rfl
  | linux =>
    have h : read_first fs linux_font_paths = none := hnone
    simp [load_chinese_font, load_linux_chinese_font, h]
    rfl

/-! ## Claim C1 -/

/-- C1, counterexample: on Windows the diagnostic accessor
`get_chinese_font_paths` does NOT return the same list that the Resolver
scans — the accessor lists 8 paths while `load_windows_chinese_font`
scans 10 (the accessor omits kaiu.ttf and mingliu.ttc). -/
theorem c1_counterexample :
    ¬ get_chinese_font_paths .windows = resolver_candidate_paths .windows := by
  decide

/-- C1, amended: on every supported platform `get_chinese_font_paths`
returns a non-empty, deterministically ordered sequence that is an
order-preserving strict sublist of the Resolver's candidate list — but
not equal to it (Windows: 8 of 10 paths, macOS: 5 of 6, Linux: 4 of 10). -/
theorem c1_amended :
    (get_chinese_font_paths .windows ≠ [] ∧
      (get_chinese_font_paths .windows).Sublist (resolver_candidate_paths .windows) ∧
      get_chinese_font_paths .windows ≠ resolver_candidate_paths .windows) ∧
    (get_chinese_font_paths .macos ≠ [] ∧
      (get_chinese_font_paths .macos).Sublist (resolver_candidate_paths .macos) ∧
      get_chinese_font_paths .macos ≠ resolver_candidate_paths .macos) ∧
    (get_chinese_font_paths .linux ≠ [] ∧
      (get_chinese_font_paths .linux).Sublist (resolver_candidate_paths .linux) ∧
      get_chinese_font_paths .linux ≠ resolver_candidate_paths .linux) := by
  decide

/-! ## Claim C2 -/

/-- A concrete prior context configuration holding a font name that is
not among the toolkit defaults. -/
def ctxPrior : Context :=
  { font_data := [("prior-font", [7])]
  , proportional := ["prior-font"]
  , monospace := ["prior-font"]
  }

/-- C2, counterexample: a name configured in the context before the call
does NOT remain present after `setup_custom_chinese_font` — the call
rebuilds the configuration from `FontDefinitions::default()` and discards
the context's prior state, so "prior-font" disappears. -/
theorem c2_counterexample :
    ¬ "prior-font" ∈ (setup_custom_chinese_font ctxPrior [1, 2, 3] none).proportional := by
  decide

/-- C2, amended: after `setup_custom_chinese_font ctx bytes nm` the
context's font-data map contains the chosen name mapped to exactly
`bytes` and both family lists have that name at index 0 — but the
entries at indices ≥ 1 are those of the toolkit's default
`FontDefinitions`, not the context's prior configuration, which is
discarded wholesale. -/
theorem c2_amended (ctx : Context) (bytes : Bytes) (nm : Option String) :
    map_get (nm.getD "chinese") (setup_custom_chinese_font ctx bytes nm).font_data
        = some bytes ∧
    (setup_custom_chinese_font ctx bytes nm).proportional
        = nm.getD "chinese" :: FontDefinitions.default.proportional ∧
    (setup_custom_chinese_font ctx bytes nm).monospace
        = nm.getD "chinese" :: FontDefinitions.default.monospace :=
  ⟨map_get_insert_self _ _ _, rfl, rfl⟩

/-! ## Claim C3 -/

/-- C3: resolution returns the contents of the first candidate in list
order whose read succeeds; earlier failures (of any kind — they are all
`none` here) are skipped silently, and the result is independent of the
filesystem's behaviour at every later candidate (the scan short-circuits:
any `fs'` agreeing on the failing prefix and the first success gives the
same result, whatever it does on the rest of the list). -/
theorem c3_first_success_short_circuits (plat : Platform) (fs : FileSystem)
    (pre post : List String) (p : String) (d : Bytes)
    (hplat : plat ≠ .other)
    (hsplit : resolver_candidate_paths plat = pre ++ p :: post)
    (hpre : ∀ q ∈ pre, fs q = none) (hp : fs p = some d) :
    load_chinese_font plat fs = .ok d ∧
    ∀ fs' : FileSystem, (∀ q ∈ pre, fs' q = none) → fs' p = some d →
      load_chinese_font plat fs' = .ok d := by
  have key : ∀ g : FileSystem, (∀ q ∈ pre, g q = none) → g p = some d →
      load_chinese_font plat g = .ok d := by
    intro g h1 h2
    rw [load_ok_iff]
    refine ⟨hplat, ?_⟩
    rw [hsplit, read_first_eq_of_prefix_none g pre (p :: post) h1]
    exact read_first_cons_of_some g p post d h2
  exact ⟨key fs hpre hp, key⟩

/-- A filesystem on which the first two Linux candidates are unreadable
and the third (ukai.ttc) reads as the bytes `[42]`. -/
def fsThird : FileSystem := fun s =>
  if s = "/usr/share/fonts/truetype/arphic/ukai.ttc" then some [42] else none

theorem c3_witness : load_chinese_font .linux fsThird = .ok [42] :=
  (c3_first_success_short_circuits .linux fsThird
    [ "/usr/share/fonts/truetype/droid/DroidSansFallbackFull.ttf"
    , "/usr/share/fonts/truetype/arphic/uming.ttc" ]
    [ "/usr/share/fonts/truetype/wqy/wqy-microhei.ttc"
    , "/usr/share/fonts/truetype/wqy/wqy-zenhei.ttc"
    , "/usr/share/fonts/opentype/noto/NotoSansCJK-Regular.ttc"
    , "/usr/share/fonts/truetype/liberation/LiberationSans-Regular.ttf"
    , "/usr/share/fonts/truetype/dejavu/DejaVuSans.ttf"
    , "/usr/share/fonts/google-droid/DroidSansFallbackFull.ttf"
    , "/usr/share/fonts/noto-cjk/NotoSansCJK-Regular.ttc" ]
    "/usr/share/fonts/truetype/arphic/ukai.ttc" [42]
    (by decide) rfl (by decide) (by decide)).1

/-! ## Claim C4 -/

/-- C4, counterexample: calling `setup_custom_chinese_font` twice with
two different names does NOT leave both names present — the second call
rebuilds the configuration from `FontDefinitions::default()`, so the
first call's name "first-font" is gone afterwards. -/
theorem c4_counterexample :
    ¬ "first-font" ∈
      (setup_custom_chinese_font
        (setup_custom_chinese_font FontDefinitions.default [1] (some "first-font"))
        [2] (some "second-font")).proportional := by
  decide

/-- C4, amended: after two calls the most recent call's name is at
index 0 of both family lists, but the earlier call's name is not
preserved: each call starts from the toolkit default, so the composite
of two calls equals a single call with the second call's arguments on
any context whatsoever. -/
theorem c4_amended (ctx ctx₂ : Context) (b₁ b₂ : Bytes) (n₁ n₂ : Option String) :
    setup_custom_chinese_font (setup_custom_chinese_font ctx b₁ n₁) b₂ n₂
        = setup_custom_chinese_font ctx₂ b₂ n₂ ∧
    (setup_custom_chinese_font (setup_custom_chinese_font ctx b₁ n₁) b₂ n₂).proportional.head?
        = some (n₂.getD "chinese") ∧
    (setup_custom_chinese_font (setup_custom_chinese_font ctx b₁ n₁) b₂ n₂).monospace.head?
        = some (n₂.getD "chinese") :=
  ⟨rfl, rfl, rfl⟩

/-! ## Claim C5 -/

/-- A filesystem on which the first Windows candidate exists and reads
successfully as an empty file (zero bytes). -/
def fsEmptyFile : FileSystem := fun s =>
  if s = "C:\\Windows\\Fonts\\msyh.ttc" then some [] else none

/-- C5, counterexample: a successful resolution is NOT always non-empty —
`std::fs::read` on an existing empty file succeeds with zero bytes and
the Resolver returns them without any size check. -/
theorem c5_counterexample :
    ¬ ∀ (fs : FileSystem) (d : Bytes),
        load_chinese_font .windows fs = .ok d → d ≠ [] :=
  fun h => h fsEmptyFile [] rfl rfl

/-- C5, amended: whenever resolution succeeds, the returned buffer is
the full contents of one of the candidate files, readable at read time
(possibly empty — the Resolver performs no size or format validation). -/
theorem c5_amended (plat : Platform) (fs : FileSystem) (d : Bytes)
    (h : load_chinese_font plat fs = .ok d) :
    ∃ p ∈ resolver_candidate_paths plat, fs p = some d := by
  obtain ⟨-, hr⟩ := (load_ok_iff plat fs d).mp h
  exact read_first_some_mem fs (resolver_candidate_paths plat) d hr

/-- A filesystem on which the first macOS candidate reads as `[9]`. -/
def fsPingFang : FileSystem := fun s =>
  if s = "/System/Library/Fonts/PingFang.ttc" then some [9] else none

theorem c5_witness :
    ∃ p ∈ resolver_candidate_paths .macos, fsPingFang p = some [9] :=
  c5_amended .macos fsPingFang [9] rfl

/-! ## Claim C6 -/

/-- C6: when resolution fails, `setup_chinese_fonts` returns that exact
Resolver failure to the caller and the context's font configuration is
left untouched — no insertion, no family-list change, no `set_fonts`
occurs on the error path. -/
theorem c6_error_leaves_context (plat : Platform) (fs : FileSystem)
    (ctx : Context) (e : FontError)
    (h : load_chinese_font plat fs = .error e) :
    setup_chinese_fonts plat fs ctx = (.error e, ctx) := by
  unfold setup_chinese_fonts
  rw [h]

/-- A filesystem on which every read fails. -/
def fsNone : FileSystem := fun _ => none

theorem c6_witness :
    setup_chinese_fonts .other fsNone ctxPrior
      = (.error .UnsupportedPlatform, ctxPrior) :=
  c6_error_leaves_context .other fsNone ctxPrior .UnsupportedPlatform rfl

/-! ## Claim C7 -/

/-- C7: on a supported platform where no candidate path yields a
readable file, resolution fails with `NotFound` carrying a message that
names the platform ("No Chinese font found on Windows"/"macOS"/"Linux"),
and on a supported platform resolution can never produce `ReadError` or
`UnsupportedPlatform`, whatever the filesystem does. -/
theorem c7_exhausted_notfound (plat : Platform) (fs : FileSystem)
    (hplat : plat ≠ .other)
    (hfail : ∀ p ∈ resolver_candidate_paths plat, fs p = none) :
    load_chinese_font plat fs =
      .error (.NotFound ("No Chinese font found on " ++ platform_display plat)) ∧
    ∀ (fs' : FileSystem) (e : String),
      load_chinese_font plat fs' ≠ .error (.ReadError e) ∧
      load_chinese_font plat fs' ≠ .error .UnsupportedPlatform := by
  refine ⟨load_exhausted plat fs hplat (read_first_eq_none fs _ hfail), ?_⟩
  intro fs' e
  cases plat with
  | other => exact absurd rfl hplat
  | windows =>
    simp only [load_chinese_font, load_windows_chinese_font]
    cases hr : read_first fs' windows_font_paths <;> simp [hr]
  | macos =>
    simp only [load_chinese_font, load_macos_chinese_font]
    cases hr : read_first fs' macos_font_paths <;> simp [hr]
  | linux =>
    simp only [load_chinese_font, load_linux_chinese_font]
    cases hr : read_first fs' linux_font_paths <;> simp [hr]

theorem c7_witness :
    load_chinese_font .windows fsNone =
      .error (.NotFound ("No Chinese font found on " ++ platform_display .windows)) :=
  (c7_exhausted_notfound .windows fsNone (by decide) (by decide)).1

/-! ## Claim C8 -/

/-- C8: on a platform outside the three recognized operating systems,
resolution fails with `UnsupportedPlatform` for every filesystem state —
so the result cannot depend on any file read, none being attempted — and
`get_chinese_font_paths` returns the empty sequence. -/
theorem c8_unsupported_platform :
    (∀ fs : FileSystem, load_chinese_font .other fs = .error .UnsupportedPlatform) ∧
    get_chinese_font_paths .other = [] :=
  ⟨fun _ => rfl, rfl⟩

/-! ## Claim C9 -/

/-- C9: `setup_custom_chinese_font` is total — it is defined for every
context, byte sequence and optional name, performs no filesystem access
(no `FileSystem` argument even occurs in its type) and always returns an
updated context.  With no name given it registers the font under the
default name "chinese" (behaving exactly as if `some "chinese"` had been
passed), and with `some s` it registers it under `s`. -/
theorem c9_total_and_naming (ctx : Context) (bytes : Bytes) :
    setup_custom_chinese_font ctx bytes none
        = setup_custom_chinese_font ctx bytes (some "chinese") ∧
    map_get "chinese" (setup_custom_chinese_font ctx bytes none).font_data
        = some bytes ∧
    (setup_custom_chinese_font ctx bytes none).proportional.head? = some "chinese" ∧
    ∀ s : String,
      map_get s (setup_custom_chinese_font ctx bytes (some s)).font_data
          = some bytes ∧
      (setup_custom_chinese_font ctx bytes (some s)).proportional.head? = some s :=
  ⟨rfl, map_get_insert_self _ _ _, rfl,
   fun _ => ⟨map_get_insert_self _ _ _, rfl⟩⟩

/-! ## Claim C10 -/

/-- C10: the font configuration installed by the registrar depends only
on its explicit arguments, never on the context's prior font state: both
operations rebuild from the toolkit's default `FontDefinitions`.  For
`setup_custom_chinese_font` the results on any two contexts coincide
outright; for `setup_chinese_fonts`, whenever resolution succeeds, the
contexts left behind by the call coincide for any two prior states. -/
theorem c10_prior_state_noninterference :
    (∀ (ctx₁ ctx₂ : Context) (b : Bytes) (n : Option String),
      setup_custom_chinese_font ctx₁ b n = setup_custom_chinese_font ctx₂ b n) ∧
    (∀ (plat : Platform) (fs : FileSystem) (ctx₁ ctx₂ : Context) (d : Bytes),
      load_chinese_font plat fs = .ok d →
      (setup_chinese_fonts plat fs ctx₁).2 = (setup_chinese_fonts plat fs ctx₂).2) := by
  refine ⟨fun _ _ _ _ => rfl, ?_⟩
  intro plat fs ctx₁ ctx₂ d h
  unfold setup_chinese_fonts
  rw [h]
  rfl

theorem c10_witness :
    (setup_chinese_fonts .macos fsPingFang FontDefinitions.default).2
      = (setup_chinese_fonts .macos fsPingFang ctxPrior).2 :=
  c10_prior_state_noninterference.2 .macos fsPingFang
    FontDefinitions.default ctxPrior [9] rfl

end EguiChineseFont
